import Mathlib

/-
Verification development for the TrelloBoardMaintainer repository.

The program is a one-shot maintenance job over a Trello board.  Its core
per-card routines are embedded here as pure Lean functions:

* `checkCardForStaleness` - resolves a card's latest relevant activity
  timestamp from its action history (with a list-level fallback query and a
  board-reported last-activity fallback) and applies the configured stale
  action (archive or delete) when the card has been inactive longer than a
  threshold;
* `tryExtractSimilarity` / `checkCardForOrder` - parses a similarity score
  from the trailing token of a card's description and repositions the card
  when its position has drifted from the target implied by the score;
* `fetchList` / `checkListForStaleCards` - the list-level driver, whose
  fetch failures panic (crash the whole process).

Modelling conventions:
* `time.Time` and `time.Duration` values are integers (nanoseconds since
  the Unix epoch; `time.UnixMilli(0)` is `0`); `t.Sub(u)` is `t - u` and
  `t.Before(u)` is `t < u`.
* `float64` values are rationals (exact real arithmetic; the decimal
  constants 1e-2, 1e-7 and 1e7 of the source are exact rationals).
* Go strings are `List Char`.
* Remote calls are inputs: each fallible fetch is passed in as an
  `Except Unit` value (the response the API would give), and each mutation
  (`Delete`, `Archive`, `SetPos`) is passed its would-be error result as an
  `Option Unit`, which the source discards.  A `log.Panicf` call becomes a
  `panicked`/`error` outcome: a panic in any goroutine kills the process.
* `action.Data.Card.ID` is flattened to the field `dataCardID`; the trello
  SDK predicates `DidCreateCard`, `DidChangeCardMembership`,
  `DidChangeListForCard`, `DidCommentCard` classify an action's kind, which
  is embedded as the enumeration `ActionKind` (kinds that none of the four
  predicates match, e.g. position changes and description edits, are the
  non-qualifying constructors).
* Fields that only feed `log.Printf` diagnostics (card and list display
  names) are omitted.
-/

deriving instance DecidableEq for Except

namespace TrelloBoardMaintainer

/-- Kind of a Trello action, as classified by the trello SDK predicates used
by the source.  `updateCardPos` and `updateCardDesc` stand for the action
kinds the source explicitly skips (position change, description edit);
`otherKind` covers any further kind none of the four predicates match. -/
inductive ActionKind where
  | createCard
  | changeMemberOnCard
  | moveCardToList
  | commentCard
  | updateCardPos
  | updateCardDesc
  | otherKind
deriving DecidableEq

/-- An action from the board history: the id of the card its data refers to
(`action.Data.Card.ID`), its kind, and its timestamp (`action.Date`). -/
structure Action where
  dataCardID : String
  kind : ActionKind
  date : Int
deriving DecidableEq

/-- A Trello card: id, description, position and the board-reported
last-activity timestamp (`card.DateLastActivity`, a nullable pointer). -/
structure Card where
  id : String
  desc : List Char
  pos : ℚ
  dateLastActivity : Option Int
deriving DecidableEq

/-- A Trello list (only its identity matters to the embedded code paths). -/
structure TrelloList where
  id : String
deriving DecidableEq

/-- The `staleCardActionEnum` of the source. -/
inductive StaleCardActionEnum where
  | staleCardActionDelete
  | staleCardActionArchive
deriving DecidableEq

/-- Which `log.Panicf` site fired. -/
inductive PanicReason where
  | cardActionsFetchFailed
  | listActionsFetchFailed
  | nilDateLastActivity
  | listFetchFailed
  | cardsFetchFailed
deriving DecidableEq

/-- Result of one `checkCardForStaleness` call: either a panic (which kills
the process), or normal completion together with the stale action that was
applied, if any, paired with the mutation call's error result (which the
source ignores). -/
inductive StaleOutcome where
  | panicked (reason : PanicReason)
  | done (applied : Option (StaleCardActionEnum × Option Unit))
deriving DecidableEq

/-- `action.DidCreateCard()`. -/
def didCreateCard (a : Action) : Bool := a.kind == ActionKind.createCard

/-- `action.DidChangeCardMembership()`. -/
def didChangeCardMembership (a : Action) : Bool :=
  a.kind == ActionKind.changeMemberOnCard

/-- `action.DidChangeListForCard()`. -/
def didChangeListForCard (a : Action) : Bool :=
  a.kind == ActionKind.moveCardToList

/-- `action.DidCommentCard()`. -/
def didCommentCard (a : Action) : Bool := a.kind == ActionKind.commentCard

/-- The action-filtering loop of `checkCardForStaleness` (source lines
69-87): starting from `latest` (the source initialises it to epoch zero),
skip any action whose `Data.Card.ID` differs from the card's id, skip any
action whose kind is not qualifying, and otherwise raise `latest` to the
action's date when it is later. -/
def latestQualifying (cardID : String) (latest : Int) : List Action → Int
  | [] => latest
  | a :: rest =>
    if a.dataCardID != cardID then
      latestQualifying cardID latest rest
    else if !(didCreateCard a || didChangeCardMembership a ||
              didChangeListForCard a || didCommentCard a) then
      latestQualifying cardID latest rest
    else if latest < a.date then
      latestQualifying cardID a.date rest
    else
      latestQualifying cardID latest rest

/-- An action survives the loop's two filters: it belongs to the card and
its kind is qualifying (creation, membership change, list move, comment). -/
def isOwnQualifying (cardID : String) (a : Action) : Bool :=
  a.dataCardID == cardID &&
    (didCreateCard a || didChangeCardMembership a ||
     didChangeListForCard a || didCommentCard a)

/-- The activity-resolution phase of `checkCardForStaleness` (source lines
47-91).  `cardActionsRes` is the response of `card.GetActions()`;
`listActionsRes` is the response the list-level fallback query
`list.GetActions(filter=createCard, idModels=card.ID)` would give, consulted
only when the first response is empty.  If the effective action set is
non-empty the loop result (seeded with epoch zero) is the resolved
timestamp; otherwise the board-reported `card.DateLastActivity` is
dereferenced (a panic when it is nil). -/
def resolveActivity (card : Card)
    (cardActionsRes listActionsRes : Except Unit (List Action)) :
    Except PanicReason Int :=
  match cardActionsRes with
  | .error _ => .error PanicReason.cardActionsFetchFailed
  | .ok acts0 =>
    match (if acts0.length = 0 then listActionsRes else .ok acts0) with
    | .error _ => .error PanicReason.listActionsFetchFailed
    | .ok acts =>
      if 0 < acts.length then
        .ok (latestQualifying card.id 0 acts)
      else
        match card.dateLastActivity with
        | none => .error PanicReason.nilDateLastActivity
        | some t => .ok t

/-- The staleness decision tail of `checkCardForStaleness` (source lines
93-104): `elapsed := now.Sub(latestActionTime)`; when it strictly exceeds
the threshold the configured stale action is applied (`card.Delete()` or
`card.Archive()`, whose error result the source discards). -/
def staleFinish (inactivityTimeSpan now latest : Int)
    (staleAction : StaleCardActionEnum)
    (deleteRes archiveRes : Option Unit) : StaleOutcome :=
  if now - latest > inactivityTimeSpan then
    StaleOutcome.done (some (staleAction,
      match staleAction with
      | StaleCardActionEnum.staleCardActionDelete => deleteRes
      | StaleCardActionEnum.staleCardActionArchive => archiveRes))
  else
    StaleOutcome.done none

/-- `checkCardForStaleness` (source lines 45-105): activity resolution
followed by the threshold decision. -/
def checkCardForStaleness (card : Card)
    (cardActionsRes listActionsRes : Except Unit (List Action))
    (inactivityTimeSpan now : Int) (staleAction : StaleCardActionEnum)
    (deleteRes archiveRes : Option Unit) : StaleOutcome :=
  match resolveActivity card cardActionsRes listActionsRes with
  | .error reason => StaleOutcome.panicked reason
  | .ok latest =>
      staleFinish inactivityTimeSpan now latest staleAction deleteRes archiveRes

/-- Which stale action a `StaleOutcome` applied, if any (the mutation's
ignored error result stripped). -/
def staleDecision : StaleOutcome → Option StaleCardActionEnum
  | StaleOutcome.done (some (a, _)) => some a
  | _ => none

/-- Whether a `StaleOutcome` is a panic. -/
def staleIsPanicked : StaleOutcome → Bool
  | StaleOutcome.panicked _ => true
  | StaleOutcome.done _ => false

/-- The suffix of a string after its last space character, or `none` if it
has no space (`strings.LastIndex(desc, " ")` returning `-1` followed by the
slice `desc[idx+1:]` in `tryExtractSimilarity`, source lines 108-114). -/
def afterLastSpace : List Char → Option (List Char)
  | [] => none
  | c :: rest =>
    match afterLastSpace rest with
    | some t => some t
    | none => if c = ' ' then some rest else none

/-- ASCII decimal digit test. -/
def isDigitCh (c : Char) : Bool := '0' ≤ c && c ≤ '9'

/-- Value of a digit string read in base 10. -/
def digitsToNat (l : List Char) : Nat :=
  l.foldl (fun n c => 10 * n + (c.toNat - 48)) 0

/-- Modelled behaviour of Go's `strconv.ParseFloat(s, 64)` on the decimal
forms the source can meet: an optional sign, a mantissa that is digits with
an optional fractional part (at least one digit in total), and an optional
decimal exponent.  The result is the exact rational value (no binary
rounding).  The special inputs Go additionally accepts (inf/NaN spellings,
hexadecimal floats, underscore-separated digits) are outside this model. -/
def parseFloatGo (s : List Char) : Option ℚ :=
  let signRest : Bool × List Char :=
    match s with
    | '+' :: r => (false, r)
    | '-' :: r => (true, r)
    | r => (false, r)
  let neg := signRest.1
  let s1 := signRest.2
  let ip := s1.takeWhile isDigitCh
  let r1 := s1.dropWhile isDigitCh
  let mantRest : Bool × ℚ × List Char :=
    match r1 with
    | '.' :: r2 =>
      let fp := r2.takeWhile isDigitCh
      let r3 := r2.dropWhile isDigitCh
      (!(ip.isEmpty && fp.isEmpty),
       (digitsToNat ip : ℚ) + (digitsToNat fp : ℚ) / (10 : ℚ) ^ fp.length,
       r3)
    | _ => (!ip.isEmpty, (digitsToNat ip : ℚ), r1)
  let hasMant := mantRest.1
  let mant := mantRest.2.1
  let r3 := mantRest.2.2
  if !hasMant then none
  else
    match r3 with
    | [] => some (if neg then -mant else mant)
    | e :: r4 =>
      if e = 'e' || e = 'E' then
        let esignRest : Bool × List Char :=
          match r4 with
          | '+' :: r => (false, r)
          | '-' :: r => (true, r)
          | r => (false, r)
        let eneg := esignRest.1
        let r5 := esignRest.2
        let ed := r5.takeWhile isDigitCh
        let r6 := r5.dropWhile isDigitCh
        if ed.isEmpty || !r6.isEmpty then none
        else
          let m2 : ℚ :=
            if eneg then mant / (10 : ℚ) ^ digitsToNat ed
            else mant * (10 : ℚ) ^ digitsToNat ed
          some (if neg then -m2 else m2)
      else none

/-- `tryExtractSimilarity` (source lines 107-122): find the last space of
the card's description; if there is none, no score; otherwise parse the
suffix after it as a float, and return `none` when parsing fails. -/
def tryExtractSimilarity (desc : List Char) : Option ℚ :=
  match afterLastSpace desc with
  | none => none
  | some toParse => parseFloatGo toParse

/-- `checkCardForOrder` (source lines 124-136).  Returns the `SetPos` call
it performs, if any: the new position written together with the call's
error result (`setPosRes`, which the source ignores); `none` when the card
is skipped (no extractable similarity) or its position is already within
tolerance of the target. -/
def checkCardForOrder (card : Card) (setPosRes : Option Unit) :
    Option (ℚ × Option Unit) :=
  match tryExtractSimilarity card.desc with
  | none => none
  | some cardSim =>
    let diff : ℚ := 1 - card.pos * (1 / 10 ^ 7) - cardSim
    if |diff| > 1 / 100 then
      some ((1 - cardSim) * 10 ^ 7, setPosRes)
    else
      none

/-- The position `checkCardForOrder` wrote, if any. -/
def orderWrotePos (r : Option (ℚ × Option Unit)) : Option ℚ :=
  r.map Prod.fst

/-- Card state after one `checkCardForOrder` pass whose `SetPos` call (if
any) succeeded, with no intervening external change. -/
def cardAfterOrder (card : Card) : Card :=
  match orderWrotePos (checkCardForOrder card none) with
  | some p => { card with pos := p }
  | none => card

/-- `fetchList` (source lines 138-144): a failed `client.GetList` panics. -/
def fetchList (getListRes : Except Unit TrelloList) :
    Except PanicReason TrelloList :=
  match getListRes with
  | .error _ => .error PanicReason.listFetchFailed
  | .ok l => .ok l

/-- Environment of one card inside a list-level staleness pass: the card and
the responses its remote calls would get. -/
structure CardCheckEnv where
  card : Card
  cardActionsRes : Except Unit (List Action)
  listActionsRes : Except Unit (List Action)
  deleteRes : Option Unit
  archiveRes : Option Unit

/-- The `checkListForStaleCards` closure of `main` (source lines 180-202):
fetch the list (panicking on failure), fetch its cards (panicking on
failure), then run `checkCardForStaleness` for every card as a goroutine and
join.  A panic in any goroutine kills the whole process, so the run outcome
is `none` (fatal abort) whenever any fetch fails, and the per-card outcomes
otherwise. -/
def checkListForStaleCards (getListRes : Except Unit TrelloList)
    (getCardsRes : Except Unit (List CardCheckEnv))
    (inactivityTimeSpan now : Int) (staleAction : StaleCardActionEnum) :
    Option (List StaleOutcome) :=
  match fetchList getListRes with
  | .error _ => none
  | .ok _ =>
    match getCardsRes with
    | .error _ => none
    | .ok envs =>
      let outs := envs.map fun e =>
        checkCardForStaleness e.card e.cardActionsRes e.listActionsRes
          inactivityTimeSpan now staleAction e.deleteRes e.archiveRes
      if outs.any staleIsPanicked then none else some outs

/-- One step of the action-filtering loop, expressed through the combined
filter `isOwnQualifying`: a surviving action raises the accumulator to the
max of itself and the action's date, any other action is skipped. -/
lemma latestQualifying_cons (cid : String) (latest : Int) (a : Action)
    (rest : List Action) :
    latestQualifying cid latest (a :: rest) =
      latestQualifying cid
        (if isOwnQualifying cid a then max latest a.date else latest) rest := by
  by_cases hid : a.dataCardID = cid
  · by_cases hq : (didCreateCard a || didChangeCardMembership a ||
        didChangeListForCard a || didCommentCard a) = true
    · rcases lt_or_le latest a.date with hlt | hle
      · simp [latestQualifying, isOwnQualifying, hid, hq, hlt,
          max_eq_right (le_of_lt hlt)]
      · simp [latestQualifying, isOwnQualifying, hid, hq, not_lt.mpr hle,
          max_eq_left hle]
    · simp [latestQualifying, isOwnQualifying, hid, hq]
  · simp [latestQualifying, isOwnQualifying, hid]

/-- If every surviving action is dated no later than the accumulator, the
loop leaves the accumulator unchanged. -/
lemma latestQualifying_const (cid : String) :
    ∀ (acts : List Action) (latest : Int),
      (∀ b ∈ acts, isOwnQualifying cid b = true → b.date ≤ latest) →
      latestQualifying cid latest acts = latest := by
  intro acts
  induction acts with
  | nil => intro latest _; rfl
  | cons a rest ih =>
    intro latest h
    rw [latestQualifying_cons]
    by_cases hq : isOwnQualifying cid a = true
    · have hle : a.date ≤ latest := h a (List.mem_cons_self a rest) hq
      rw [if_pos hq, max_eq_left hle]
      exact ih latest fun b hb => h b (List.mem_cons_of_mem a hb)
    · rw [if_neg hq]
      exact ih latest fun b hb => h b (List.mem_cons_of_mem a hb)

/-- The loop computes the maximum date among surviving actions whenever one
of them is maximal and the seed is below it. -/
lemma latestQualifying_max (cid : String) :
    ∀ (acts : List Action) (latest : Int) (a : Action),
      a ∈ acts → isOwnQualifying cid a = true →
      (∀ b ∈ acts, isOwnQualifying cid b = true → b.date ≤ a.date) →
      latest ≤ a.date →
      latestQualifying cid latest acts = a.date := by
  intro acts
  induction acts with
  | nil => intro _ _ h; exact absurd h (List.not_mem_nil _)
  | cons b rest ih =>
    intro latest a ha hq hmax hinit
    rw [latestQualifying_cons]
    rcases List.mem_cons.mp ha with rfl | hmem
    · rw [if_pos hq, max_eq_right hinit]
      exact latestQualifying_const cid rest a.date
        fun c hc hqc => hmax c (List.mem_cons_of_mem a hc) hqc
    · by_cases hqb : isOwnQualifying cid b = true
      · rw [if_pos hqb]
        refine ih _ a hmem hq
          (fun c hc hqc => hmax c (List.mem_cons_of_mem b hc) hqc) ?_
        exact max_le hinit (hmax b (List.mem_cons_self b rest) hqb)
      · rw [if_neg hqb]
        exact ih _ a hmem hq
          (fun c hc hqc => hmax c (List.mem_cons_of_mem b hc) hqc) hinit

/-- Filtered-out actions never contribute to the loop result. -/
lemma latestQualifying_filter (cid : String) :
    ∀ (acts : List Action) (latest : Int),
      latestQualifying cid latest acts =
        latestQualifying cid latest
          (acts.filter fun b => isOwnQualifying cid b) := by
  intro acts
  induction acts with
  | nil => intro _; rfl
  | cons a rest ih =>
    intro latest
    rw [latestQualifying_cons, List.filter_cons]
    by_cases hq : isOwnQualifying cid a = true
    · rw [if_pos hq, if_pos hq, latestQualifying_cons, if_pos hq]
      exact ih _
    · rw [if_neg hq, if_neg hq]
      exact ih _

/-- A string without a space has no trailing token. -/
lemma afterLastSpace_eq_none : ∀ l : List Char, ' ' ∉ l →
    afterLastSpace l = none := by
  intro l
  induction l with
  | nil => intro _; rfl
  | cons c rest ih =>
    intro h
    simp only [List.mem_cons, not_or] at h
    have h1 : ¬ (c = ' ') := fun hc => h.1 hc.symm
    simp [afterLastSpace, ih h.2, h1]

/-- The suffix after the last space of `a ++ " " ++ b` is `b` whenever `b`
itself is space-free. -/
lemma afterLastSpace_append : ∀ (a b : List Char), ' ' ∉ b →
    afterLastSpace (a ++ ' ' :: b) = some b := by
  intro a
  induction a with
  | nil =>
    intro b hb
    simp [afterLastSpace, afterLastSpace_eq_none b hb]
  | cons c a2 ih =>
    intro b hb
    simp [afterLastSpace, ih b hb]

/-- Claim C1 counterexample: a card whose fetched action set is non-empty
but contains only an action of a different card (so both sources yield no
qualifying action after filtering, and the board-reported last-activity
timestamp 1000 is recent enough that the claim demands no stale action),
yet the code keeps the epoch-zero default as the resolved timestamp and
archives the card. -/
theorem stale_fallback_claim_cex :
    checkCardForStaleness ⟨"c1", [], 0, some 1000⟩
        (.ok [⟨"x", ActionKind.commentCard, 100⟩]) (.ok [])
        1500 2000 StaleCardActionEnum.staleCardActionArchive none none
      = StaleOutcome.done (some (StaleCardActionEnum.staleCardActionArchive, none))
    ∧ isOwnQualifying "c1" ⟨"x", ActionKind.commentCard, 100⟩ = false
    ∧ ¬ ((2000 : Int) - 1000 > 1500) :=
  ⟨by decide, by decide, by decide⟩

/-- Claim C1 (amended): the board-reported last-activity fallback is used
exactly when both action fetches return zero actions outright; in that case
(and with the pointer present) the staleness decision is taken against that
timestamp, never against the transient epoch-zero default. -/
theorem stale_fallback_bothSourcesEmpty (card : Card) (t : Int)
    (inactivityTimeSpan now : Int) (staleAction : StaleCardActionEnum)
    (deleteRes archiveRes : Option Unit)
    (h : card.dateLastActivity = some t) :
    checkCardForStaleness card (.ok []) (.ok [])
        inactivityTimeSpan now staleAction deleteRes archiveRes
      = staleFinish inactivityTimeSpan now t staleAction deleteRes archiveRes := by
  simp [checkCardForStaleness, resolveActivity, h]

/-- Witness for the amended claim C1 at a concrete card. -/
theorem stale_fallback_bothSourcesEmpty_witness :
    checkCardForStaleness ⟨"c1", [], 0, some 40⟩ (.ok []) (.ok [])
        3 100 StaleCardActionEnum.staleCardActionArchive none none
      = staleFinish 3 100 40 StaleCardActionEnum.staleCardActionArchive none none :=
  stale_fallback_bothSourcesEmpty ⟨"c1", [], 0, some 40⟩ 40 3 100
    StaleCardActionEnum.staleCardActionArchive none none rfl

/-- Claim C2 counterexample: the card's only action belongs to it and is a
qualifying comment, but is dated before the Unix epoch (-5).  The claim
demands the resolved timestamp -5, hence elapsed 2 - (-5) = 7 > 3 and a
stale action; the code keeps the epoch-zero seed (resolved 0, elapsed 2)
and applies nothing. -/
theorem resolve_max_claim_cex :
    isOwnQualifying "c" ⟨"c", ActionKind.commentCard, -5⟩ = true
    ∧ resolveActivity ⟨"c", [], 0, some 0⟩
        (.ok [⟨"c", ActionKind.commentCard, -5⟩]) (.ok []) = .ok 0
    ∧ checkCardForStaleness ⟨"c", [], 0, some 0⟩
        (.ok [⟨"c", ActionKind.commentCard, -5⟩]) (.ok [])
        3 2 StaleCardActionEnum.staleCardActionArchive none none
      = StaleOutcome.done none
    ∧ ((2 : Int) - (-5) > 3) :=
  ⟨by decide, by decide, by decide, by decide⟩

/-- Claim C2 (amended): for a card with at least one qualifying action of
its own, the resolved activity timestamp equals the maximum timestamp among
the qualifying actions belonging to that card provided that maximum is not
earlier than the Unix epoch (otherwise the epoch-zero seed wins); actions
belonging to a different card and actions of other kinds never contribute
to the loop result. -/
theorem resolve_max_qualifying :
    (∀ (card : Card) (listActionsRes : Except Unit (List Action))
       (acts : List Action) (a : Action),
      a ∈ acts → isOwnQualifying card.id a = true →
      (∀ b ∈ acts, isOwnQualifying card.id b = true → b.date ≤ a.date) →
      0 ≤ a.date →
      resolveActivity card (.ok acts) listActionsRes = .ok a.date)
    ∧ (∀ (cid : String) (latest : Int) (acts : List Action),
        latestQualifying cid latest acts =
          latestQualifying cid latest
            (acts.filter fun b => isOwnQualifying cid b)) := by
  constructor
  · intro card listActionsRes acts a ha hq hmax hpos
    have hne : acts ≠ [] := fun h => by simp [h] at ha
    have hlen : ¬ acts.length = 0 := by simpa using hne
    have hlq : latestQualifying card.id 0 acts = a.date :=
      latestQualifying_max card.id acts 0 a ha hq hmax hpos
    simp [resolveActivity, hlen, Nat.pos_of_ne_zero hlen, hlq]
  · intro cid latest acts
    exact latestQualifying_filter cid acts latest

/-- Witness for the amended claim C2: a card with a maximal own comment at
time 5 among a position change and a foreign action resolves to 5. -/
theorem resolve_max_qualifying_witness :
    resolveActivity ⟨"c", [], 0, none⟩
        (.ok [⟨"c", ActionKind.commentCard, 5⟩,
              ⟨"c", ActionKind.updateCardPos, 99⟩,
              ⟨"z", ActionKind.commentCard, 88⟩]) (.ok [])
      = .ok 5 :=
  resolve_max_qualifying.1 ⟨"c", [], 0, none⟩ (.ok [])
    [⟨"c", ActionKind.commentCard, 5⟩,
     ⟨"c", ActionKind.updateCardPos, 99⟩,
     ⟨"z", ActionKind.commentCard, 88⟩]
    ⟨"c", ActionKind.commentCard, 5⟩
    (by decide) (by decide) (by decide) (by decide)

/-- Claim C3: given a resolved activity timestamp, the configured stale
action is applied iff `now - resolved` strictly exceeds the threshold; at
equality nothing is applied and the outcome is a normal completion, not a
panic. -/
theorem stale_threshold_strict (card : Card)
    (cardActionsRes listActionsRes : Except Unit (List Action))
    (inactivityTimeSpan now r : Int) (staleAction : StaleCardActionEnum)
    (deleteRes archiveRes : Option Unit)
    (h : resolveActivity card cardActionsRes listActionsRes = .ok r) :
    staleDecision (checkCardForStaleness card cardActionsRes listActionsRes
        inactivityTimeSpan now staleAction deleteRes archiveRes)
      = (if now - r > inactivityTimeSpan then some staleAction else none)
    ∧ (now - r = inactivityTimeSpan →
        checkCardForStaleness card cardActionsRes listActionsRes
          inactivityTimeSpan now staleAction deleteRes archiveRes
          = StaleOutcome.done none) := by
  constructor
  · by_cases hgt : now - r > inactivityTimeSpan
    · cases staleAction <;> simp [checkCardForStaleness, h, staleFinish, hgt, staleDecision]
    · simp [checkCardForStaleness, h, staleFinish, hgt, staleDecision]
  · intro heq
    simp [checkCardForStaleness, h, staleFinish, heq]

/-- Witness for claim C3: resolved timestamp 5, threshold 3, now 10. -/
theorem stale_threshold_strict_witness :
    staleDecision (checkCardForStaleness ⟨"c", [], 0, some 5⟩ (.ok []) (.ok [])
        3 10 StaleCardActionEnum.staleCardActionArchive none none)
      = (if (10 : Int) - 5 > 3 then some StaleCardActionEnum.staleCardActionArchive else none)
    ∧ ((10 : Int) - 5 = 3 →
        checkCardForStaleness ⟨"c", [], 0, some 5⟩ (.ok []) (.ok [])
          3 10 StaleCardActionEnum.staleCardActionArchive none none
          = StaleOutcome.done none) :=
  stale_threshold_strict ⟨"c", [], 0, some 5⟩ (.ok []) (.ok []) 3 10 5
    StaleCardActionEnum.staleCardActionArchive none none (by decide)

/-- Claim C9: a non-empty fetched action set in which every action is
discarded by the card-identity or kind filter leaves the epoch-zero seed as
the resolved timestamp; the board-reported last-activity value is never
consulted (the conclusion holds for every card, its `dateLastActivity`
taking any value including `none`), and the stale decision is taken against
epoch zero. -/
theorem stale_allFiltered_usesEpochZero (card : Card)
    (listActionsRes : Except Unit (List Action)) (acts : List Action)
    (inactivityTimeSpan now : Int) (staleAction : StaleCardActionEnum)
    (deleteRes archiveRes : Option Unit)
    (hne : acts ≠ [])
    (hall : ∀ b ∈ acts, isOwnQualifying card.id b = false) :
    resolveActivity card (.ok acts) listActionsRes = .ok 0
    ∧ checkCardForStaleness card (.ok acts) listActionsRes
        inactivityTimeSpan now staleAction deleteRes archiveRes
      = staleFinish inactivityTimeSpan now 0 staleAction deleteRes archiveRes := by
  have hlen : ¬ acts.length = 0 := by simpa using hne
  have hlq : latestQualifying card.id 0 acts = 0 :=
    latestQualifying_const card.id acts 0
      (fun b hb hq => absurd hq (by simp [hall b hb]))
  constructor
  · simp [resolveActivity, hlen, Nat.pos_of_ne_zero hlen, hlq]
  · simp [checkCardForStaleness, resolveActivity, hlen,
      Nat.pos_of_ne_zero hlen, hlq]

/-- Witness for claim C9: a card with a nil last-activity pointer, one own
position-change action and one foreign comment resolves to epoch zero and
is archived since now - 0 exceeds the threshold. -/
theorem stale_allFiltered_usesEpochZero_witness :
    resolveActivity ⟨"c", [], 0, none⟩
        (.ok [⟨"c", ActionKind.updateCardPos, 500⟩,
              ⟨"x", ActionKind.commentCard, 900⟩]) (.ok [])
      = .ok 0
    ∧ checkCardForStaleness ⟨"c", [], 0, none⟩
        (.ok [⟨"c", ActionKind.updateCardPos, 500⟩,
              ⟨"x", ActionKind.commentCard, 900⟩]) (.ok [])
        3 10 StaleCardActionEnum.staleCardActionDelete none none
      = staleFinish 3 10 0 StaleCardActionEnum.staleCardActionDelete none none :=
  stale_allFiltered_usesEpochZero ⟨"c", [], 0, none⟩ (.ok [])
    [⟨"c", ActionKind.updateCardPos, 500⟩, ⟨"x", ActionKind.commentCard, 900⟩]
    3 10 StaleCardActionEnum.staleCardActionDelete none none
    (by decide) (by decide)

/-- Claim C10: when both action fetches return zero actions and the card's
board-reported last-activity pointer is nil, the staleness check
dereferences the nil pointer and panics instead of completing. -/
theorem stale_nilLastActivity_panics (card : Card)
    (inactivityTimeSpan now : Int) (staleAction : StaleCardActionEnum)
    (deleteRes archiveRes : Option Unit)
    (h : card.dateLastActivity = none) :
    checkCardForStaleness card (.ok []) (.ok [])
        inactivityTimeSpan now staleAction deleteRes archiveRes
      = StaleOutcome.panicked PanicReason.nilDateLastActivity := by
  simp [checkCardForStaleness, resolveActivity, h]

/-- Witness for claim C10 at a concrete card. -/
theorem stale_nilLastActivity_panics_witness :
    checkCardForStaleness ⟨"c", [], 0, none⟩ (.ok []) (.ok [])
        3 10 StaleCardActionEnum.staleCardActionArchive none none
      = StaleOutcome.panicked PanicReason.nilDateLastActivity :=
  stale_nilLastActivity_panics ⟨"c", [], 0, none⟩ 3 10
    StaleCardActionEnum.staleCardActionArchive none none rfl

/-- Unfolding of `checkCardForOrder` when a similarity score is extracted. -/
lemma checkCardForOrder_some (card : Card) (setPosRes : Option Unit) (s : ℚ)
    (hs : tryExtractSimilarity card.desc = some s) :
    checkCardForOrder card setPosRes =
      (if |1 - card.pos * (1 / 10 ^ 7) - s| > 1 / 100
       then some ((1 - s) * 10 ^ 7, setPosRes) else none) := by
  simp only [checkCardForOrder, hs]

/-- Claim C4: when a similarity score s is extractable, the reorder engine
writes a new position iff the difference 1 - pos*1e-7 - s exceeds 1e-2 in
absolute value, and the value written is (1 - s)*1e7 (so similarity 1 maps
to target 0 and similarity 0 to 1e7); with no extractable score or within
tolerance nothing is written and the card's position is unchanged. -/
theorem order_threshold_gated (card : Card) (setPosRes : Option Unit) :
    (∀ s : ℚ, tryExtractSimilarity card.desc = some s →
      orderWrotePos (checkCardForOrder card setPosRes) =
        (if |1 - card.pos * (1 / 10 ^ 7) - s| > 1 / 100
         then some ((1 - s) * 10 ^ 7) else none))
    ∧ (tryExtractSimilarity card.desc = none →
        checkCardForOrder card setPosRes = none)
    ∧ (1 - (1 : ℚ)) * 10 ^ 7 = 0
    ∧ (1 - (0 : ℚ)) * 10 ^ 7 = 10 ^ 7
    ∧ (orderWrotePos (checkCardForOrder card none) = none →
        cardAfterOrder card = card) := by
  refine ⟨?_, ?_, by norm_num, by norm_num, ?_⟩
  · intro s hs
    simp only [checkCardForOrder, hs]
    split <;> simp [orderWrotePos]
  · intro hs
    simp [checkCardForOrder, hs]
  · intro h
    simp [cardAfterOrder, h]

/-- Witness for claim C4: a card at position 0 with description yielding
similarity 0.5. -/
theorem order_threshold_gated_witness :
    orderWrotePos (checkCardForOrder ⟨"c", (("a 0.5").data), 0, none⟩ none) =
      (if |1 - (0 : ℚ) * (1 / 10 ^ 7) - 1 / 2| > 1 / 100
       then some ((1 - 1 / 2) * 10 ^ 7) else none) :=
  (order_threshold_gated ⟨"c", (("a 0.5").data), 0, none⟩ none).1 (1 / 2)
    (by
      simp [tryExtractSimilarity, afterLastSpace, parseFloatGo, digitsToNat,
        isDigitCh, List.takeWhile, List.dropWhile]
      norm_num)

/-- Claim C7: a second reorder pass on the card state left by a first pass
(whose position write, if any, succeeded, with no intervening external
change) computes a difference within tolerance and performs no update. -/
theorem order_idempotent (card : Card) (setPosRes : Option Unit) :
    checkCardForOrder (cardAfterOrder card) setPosRes = none := by
  cases hs : tryExtractSimilarity card.desc with
  | none =>
    have hc : cardAfterOrder card = card := by
      simp [cardAfterOrder, checkCardForOrder, hs, orderWrotePos]
    rw [hc]
    simp [checkCardForOrder, hs]
  | some s =>
    by_cases hcond : |1 - card.pos * (1 / 10 ^ 7) - s| > 1 / 100
    · have hc : cardAfterOrder card = { card with pos := (1 - s) * 10 ^ 7 } := by
        unfold cardAfterOrder
        rw [checkCardForOrder_some card none s hs, if_pos hcond]
        rfl
      rw [hc, checkCardForOrder_some { card with pos := (1 - s) * 10 ^ 7 } setPosRes s hs]
      have hzero : ¬ (|1 - ((1 - s) * 10 ^ 7 : ℚ) * (1 / 10 ^ 7) - s| > 1 / 100) := by
        rw [show (1 : ℚ) - ((1 - s) * 10 ^ 7) * (1 / 10 ^ 7) - s = 0 from by ring]
        norm_num
      exact if_neg hzero
    · have hc : cardAfterOrder card = card := by
        unfold cardAfterOrder
        rw [checkCardForOrder_some card none s hs, if_neg hcond]
        rfl
      rw [hc, checkCardForOrder_some card setPosRes s hs]
      exact if_neg hcond

/-- Claim C5: mutation errors (the discarded results of `Delete`, `Archive`
and `SetPos`) never change a card check's panic status, its stale decision,
or the position the reorder engine writes: the run continues identically,
so the process exit status cannot depend on them. -/
theorem mutation_errors_not_escalated
    (card : Card) (cardActionsRes listActionsRes : Except Unit (List Action))
    (inactivityTimeSpan now : Int) (staleAction : StaleCardActionEnum)
    (d1 a1 d2 a2 : Option Unit) (card2 : Card) (r1 r2 : Option Unit) :
    staleIsPanicked (checkCardForStaleness card cardActionsRes listActionsRes
        inactivityTimeSpan now staleAction d1 a1)
      = staleIsPanicked (checkCardForStaleness card cardActionsRes listActionsRes
        inactivityTimeSpan now staleAction d2 a2)
    ∧ staleDecision (checkCardForStaleness card cardActionsRes listActionsRes
        inactivityTimeSpan now staleAction d1 a1)
      = staleDecision (checkCardForStaleness card cardActionsRes listActionsRes
        inactivityTimeSpan now staleAction d2 a2)
    ∧ orderWrotePos (checkCardForOrder card2 r1)
      = orderWrotePos (checkCardForOrder card2 r2) := by
  refine ⟨?_, ?_, ?_⟩
  · cases hres : resolveActivity card cardActionsRes listActionsRes with
    | error p => simp [checkCardForStaleness, hres]
    | ok t =>
      simp only [checkCardForStaleness, hres, staleFinish]
      split <;> rfl
  · cases hres : resolveActivity card cardActionsRes listActionsRes with
    | error p => simp [checkCardForStaleness, hres]
    | ok t =>
      simp only [checkCardForStaleness, hres, staleFinish]
      split <;> rfl
  · cases hs : tryExtractSimilarity card2.desc with
    | none => simp [checkCardForOrder, hs]
    | some s =>
      rw [checkCardForOrder_some card2 r1 s hs, checkCardForOrder_some card2 r2 s hs]
      split <;> rfl

/-- Claim C6: similarity extraction takes the trailing token after the last
space and parses it as a float; a space-free description or an unparseable
trailing token yields no score.  Concretely: "Some text 0.8734" yields
0.8734, "NoNumberHere" yields no score, "Text abc" yields no score; in
general a space-free description yields none, and for any prefix followed by
a space and a space-free suffix the result is the parse of that suffix. -/
theorem tryExtractSimilarity_spec :
    tryExtractSimilarity (("Some text 0.8734").data) = some ((8734 : ℚ) / 10000)
    ∧ tryExtractSimilarity (("NoNumberHere").data) = none
    ∧ tryExtractSimilarity (("Text abc").data) = none
    ∧ (∀ d : List Char, ' ' ∉ d → tryExtractSimilarity d = none)
    ∧ (∀ (a b : List Char), ' ' ∉ b →
        tryExtractSimilarity (a ++ ' ' :: b) = parseFloatGo b) := by
  refine ⟨?_, by decide, ?_, ?_, ?_⟩
  · simp [tryExtractSimilarity, afterLastSpace, parseFloatGo, digitsToNat,
      isDigitCh, List.takeWhile, List.dropWhile]
    norm_num
  · simp [tryExtractSimilarity, afterLastSpace, parseFloatGo, digitsToNat,
      isDigitCh, List.takeWhile, List.dropWhile]
  · intro d hd
    simp [tryExtractSimilarity, afterLastSpace_eq_none d hd]
  · intro a b hb
    simp [tryExtractSimilarity, afterLastSpace_append a b hb]

/-- Witness for claim C6 on a concrete split description. -/
theorem tryExtractSimilarity_spec_witness :
    (' ' ∉ (("0.25").data))
    ∧ tryExtractSimilarity ((("sim:").data) ++ ' ' :: (("0.25").data))
      = parseFloatGo (("0.25").data) :=
  ⟨by decide, tryExtractSimilarity_spec.2.2.2.2 (("sim:").data) (("0.25").data) (by decide)⟩

/-- Claim C8: every retrieval failure is fatal to the whole run: a failed
list fetch or card fetch aborts the list pass outright, a failed action
fetch (either source) panics the card's goroutine, and any per-card panic
makes the joined run outcome a fatal abort rather than a partial result. -/
theorem fetch_errors_fatal :
    (∀ (cardsRes : Except Unit (List CardCheckEnv)) (inact now : Int)
       (act : StaleCardActionEnum),
      checkListForStaleCards (.error ()) cardsRes inact now act = none)
    ∧ (∀ (l : TrelloList) (inact now : Int) (act : StaleCardActionEnum),
        checkListForStaleCards (.ok l) (.error ()) inact now act = none)
    ∧ (∀ (l : TrelloList) (envs : List CardCheckEnv) (e : CardCheckEnv)
         (inact now : Int) (act : StaleCardActionEnum),
        e ∈ envs → e.cardActionsRes = .error () →
        checkListForStaleCards (.ok l) (.ok envs) inact now act = none)
    ∧ (∀ (l : TrelloList) (envs : List CardCheckEnv) (e : CardCheckEnv)
         (inact now : Int) (act : StaleCardActionEnum),
        e ∈ envs → e.cardActionsRes = .ok [] → e.listActionsRes = .error () →
        checkListForStaleCards (.ok l) (.ok envs) inact now act = none)
    ∧ (∀ (card : Card) (listActionsRes : Except Unit (List Action))
         (inact now : Int) (act : StaleCardActionEnum) (dRes aRes : Option Unit),
        checkCardForStaleness card (.error ()) listActionsRes inact now act dRes aRes
          = StaleOutcome.panicked PanicReason.cardActionsFetchFailed)
    ∧ (∀ (card : Card) (inact now : Int) (act : StaleCardActionEnum)
         (dRes aRes : Option Unit),
        checkCardForStaleness card (.ok []) (.error ()) inact now act dRes aRes
          = StaleOutcome.panicked PanicReason.listActionsFetchFailed) := by
  refine ⟨?_, ?_, ?_, ?_, ?_, ?_⟩
  · intro cardsRes inact now act
    simp [checkListForStaleCards, fetchList]
  · intro l inact now act
    simp [checkListForStaleCards, fetchList]
  · intro l envs e inact now act he herr
    have hp : staleIsPanicked (checkCardForStaleness e.card e.cardActionsRes
        e.listActionsRes inact now act e.deleteRes e.archiveRes) = true := by
      rw [herr]
      rfl
    simp only [checkListForStaleCards, fetchList]
    have hany : (envs.map fun e2 => checkCardForStaleness e2.card e2.cardActionsRes
        e2.listActionsRes inact now act e2.deleteRes e2.archiveRes).any staleIsPanicked
        = true :=
      List.any_eq_true.mpr ⟨_, List.mem_map_of_mem _ he, hp⟩
    simp [hany]
  · intro l envs e inact now act he herr1 herr2
    have hp : staleIsPanicked (checkCardForStaleness e.card e.cardActionsRes
        e.listActionsRes inact now act e.deleteRes e.archiveRes) = true := by
      rw [herr1, herr2]
      rfl
    simp only [checkListForStaleCards, fetchList]
    have hany : (envs.map fun e2 => checkCardForStaleness e2.card e2.cardActionsRes
        e2.listActionsRes inact now act e2.deleteRes e2.archiveRes).any staleIsPanicked
        = true :=
      List.any_eq_true.mpr ⟨_, List.mem_map_of_mem _ he, hp⟩
    simp [hany]
  · intro card listActionsRes inact now act dRes aRes
    rfl
  · intro card inact now act dRes aRes
    rfl

/-- Witness for claim C8: a one-card list whose card-action fetch fails
makes the whole list pass abort. -/
theorem fetch_errors_fatal_witness :
    checkListForStaleCards (.ok ⟨"L"⟩)
        (.ok [⟨⟨"c", [], 0, none⟩, .error (), .ok [], none, none⟩])
        5 9 StaleCardActionEnum.staleCardActionArchive = none :=
  fetch_errors_fatal.2.2.1 ⟨"L"⟩
    [⟨⟨"c", [], 0, none⟩, .error (), .ok [], none, none⟩]
    ⟨⟨"c", [], 0, none⟩, .error (), .ok [], none, none⟩
    5 9 StaleCardActionEnum.staleCardActionArchive (by simp) rfl

end TrelloBoardMaintainer
